import Mathlib

/-!
A verification development for the Elster CAN bus / MQTT bridge
(`elster2mqtt.py`).  The protocol layer of the program is embedded
shallowly: Python integers become `Int` (with Mathlib's two's-complement
`Int.land` / `Int.lor` / `Int.shiftRight`, which agree with Python's
`&`, `|`, `>>` on all integers, and `<<<` which agrees with Python's
`<<`), byte payloads become `List Int`, and fallible Python code
(`raise` / `except`) becomes `Except PyError`.
-/

namespace Elster

/-- The Python exceptions that the protocol layer can raise.  The
`ElsterError` hierarchy of the source is the `elster` constructor;
built-in Python exceptions (`IndexError`, `TypeError`, `KeyError`,
`ValueError`) get their own constructors because `ElsterBus.read`
catches only `ElsterError`. -/
inductive ElsterErr where
  | dataSizeError
  | dataByte2Error
  | invalidName
  | readTimedOut
deriving DecidableEq, Repr

inductive PyError where
  | elster (e : ElsterErr)
  | indexError
  | typeError
  | keyError
  | valueError
deriving DecidableEq, Repr

/-- `TYPE_REQUEST = 0x01` from the source. -/
def TYPE_REQUEST : Int := 0x01

/-- `TYPE_RESPONSE = 0x02` from the source. -/
def TYPE_RESPONSE : Int := 0x02

/-- Embeds `encode_elster_data(receiver, register, value=None)`.
Builds the 5-byte request (`value` absent) or 7-byte response
(`value` present) payload:
`data[0] = ((receiver >> 3) & 0xf0) | (msg_type & 0x0f)`,
`data[1] = receiver & 0x7f`, `data[2] = 0xfa`,
`data[3] = (register >> 8) & 0xff`, `data[4] = register & 0xff`,
and for responses `data[5] = (value >> 8) & 0xff`,
`data[6] = value & 0xff`. -/
def encode_elster_data (receiver register : Int) (value : Option Int) : List Int :=
  let msg_type : Int := match value with
    | none => TYPE_REQUEST
    | some _ => TYPE_RESPONSE
  let data : List Int :=
    [ Int.lor (Int.land (Int.shiftRight receiver 3) 0xf0) (Int.land msg_type 0x0f),
      Int.land receiver 0x7f,
      0xfa,
      Int.land (Int.shiftRight register 8) 0xff,
      Int.land register 0xff ]
  match value with
  | none => data
  | some v => data ++ [Int.land (Int.shiftRight v 8) 0xff, Int.land v 0xff]

/-- Embeds `decode_elster_data(data, size=7)`.
Raises `ElsterDataSizeError` when `len(data) != size`, then
`ElsterDataByte2Error` when `data[2] != 0xfa`, then computes
`msg_type = data[0] & 0x0f`,
`receiver = ((data[0] & 0xf0) << 3) | (data[1] & 0x7f)`,
`register = ((data[3] & 0xff) << 8) | (data[4] & 0xff)`, and for
7-byte frames `value = ((data[5] & 0xff) << 8) | (data[6] & 0xff)`.
A subscript `data[i]` on a frame too short to have index `i` raises
Python's `IndexError`, embedded as `PyError.indexError` (this happens
for matching sizes below 5, where `data[3]` or `data[4]` is out of
range, or below 3, where the sentinel check itself is out of range). -/
def decode_elster_data (data : List Int) (size : Nat) :
    Except PyError (Int × Int × Int × Option Int) :=
  if data.length ≠ size then .error (.elster .dataSizeError)
  else match data[2]? with
  | none => .error .indexError
  | some d2 =>
    if d2 ≠ 0xfa then .error (.elster .dataByte2Error)
    else match data[0]?, data[1]?, data[3]?, data[4]? with
    | some d0, some d1, some d3, some d4 =>
      let msg_type := Int.land d0 0x0f
      let receiver := Int.lor ((Int.land d0 0xf0) <<< 3) (Int.land d1 0x7f)
      let register := Int.lor ((Int.land d3 0xff) <<< 8) (Int.land d4 0xff)
      if data.length = 7 then
        match data[5]?, data[6]? with
        | some d5, some d6 =>
          .ok (msg_type, receiver, register,
               some (Int.lor ((Int.land d5 0xff) <<< 8) (Int.land d6 0xff)))
        | _, _ => .error .indexError
      else .ok (msg_type, receiver, register, none)
    | _, _, _, _ => .error .indexError

/-! ### Bridging lemmas: the Int bit operations on natural inputs -/

@[simp, norm_cast]
theorem int_land_natCast (m n : Nat) : Int.land (↑m) (↑n) = ((m &&& n : Nat) : Int) := rfl

@[simp, norm_cast]
theorem int_lor_natCast (m n : Nat) : Int.lor (↑m) (↑n) = ((m ||| n : Nat) : Int) := rfl

@[simp, norm_cast]
theorem int_shiftRight_natCast (m s : Nat) :
    Int.shiftRight (↑m) s = ((m >>> s : Nat) : Int) := rfl

@[simp, norm_cast]
theorem int_shiftLeft_natCast (m n : Nat) :
    ((m : Int) <<< (n : Int)) = ((m <<< n : Nat) : Int) :=
  Int.shiftLeft_coe_nat m n

/-! ### Nat-level bit identities behind the round-trip -/

set_option maxRecDepth 4096 in
theorem and240_eq : ∀ x : Nat, x < 256 → x &&& 240 = 16 * (x / 16) := by decide

theorem and_255_eq_mod (x : Nat) : x &&& 255 = x % 256 := by
  have h : (255 : Nat) = 2 ^ 8 - 1 := rfl
  rw [h, Nat.and_pow_two_sub_one_eq_mod]

theorem and_127_eq_mod (x : Nat) : x &&& 127 = x % 128 := by
  have h : (127 : Nat) = 2 ^ 7 - 1 := rfl
  rw [h, Nat.and_pow_two_sub_one_eq_mod]

theorem and_15_eq_mod (x : Nat) : x &&& 15 = x % 16 := by
  have h : (15 : Nat) = 2 ^ 4 - 1 := rfl
  rw [h, Nat.and_pow_two_sub_one_eq_mod]

/-- Encoding then masking byte 0 with `0x0f` recovers the message type. -/
theorem nat_byte0_low (n t : Nat) (hn : n < 2048) (ht : t ≤ 15) :
    (((n >>> 3) &&& 240) ||| t) &&& 15 = t := by
  have h8 : n >>> 3 = n / 8 := by rw [Nat.shiftRight_eq_div_pow]
  have hlt : n / 8 < 256 := by omega
  have h1 : (n / 8) &&& 240 = 16 * (n / 8 / 16) := and240_eq _ hlt
  have h2 : n / 8 / 16 = n / 128 := by rw [Nat.div_div_eq_div_mul]
  have ha : n / 128 < 16 := by omega
  have hor : (2 ^ 4) * (n / 128) + t = (2 ^ 4) * (n / 128) ||| t :=
    Nat.mul_add_lt_is_or (by omega) _
  rw [h8, h1, h2]
  have h16 : (16 : Nat) * (n / 128) ||| t = 16 * (n / 128) + t := by
    have : (16 : Nat) = 2 ^ 4 := rfl
    rw [this, ← hor]
  rw [h16, and_15_eq_mod]
  omega

/-- Decoding byte 0 and byte 1 of an encoded frame recovers an 11-bit
receiver address. -/
theorem nat_receiver_roundtrip (n t : Nat) (hn : n < 2048) (ht : t ≤ 15) :
    ((((((n >>> 3) &&& 240) ||| t) &&& 240) <<< 3) ||| ((n &&& 127) &&& 127)) = n := by
  have h8 : n >>> 3 = n / 8 := by rw [Nat.shiftRight_eq_div_pow]
  have hlt : n / 8 < 256 := by omega
  have h1 : (n / 8) &&& 240 = 16 * (n / 8 / 16) := and240_eq _ hlt
  have h2 : n / 8 / 16 = n / 128 := by rw [Nat.div_div_eq_div_mul]
  have ha : n / 128 < 16 := by omega
  have hor : (2 ^ 4) * (n / 128) + t = (2 ^ 4) * (n / 128) ||| t :=
    Nat.mul_add_lt_is_or (by omega) _
  have h16 : (16 : Nat) * (n / 128) ||| t = 16 * (n / 128) + t := by
    have : (16 : Nat) = 2 ^ 4 := rfl
    rw [this, ← hor]
  have hb0 : 16 * (n / 128) + t < 256 := by omega
  have h3 : (16 * (n / 128) + t) &&& 240 = 16 * ((16 * (n / 128) + t) / 16) :=
    and240_eq _ hb0
  have h4 : (16 * (n / 128) + t) / 16 = n / 128 := by omega
  have h5 : (n &&& 127) &&& 127 = n % 128 := by
    rw [and_127_eq_mod, and_127_eq_mod]; omega
  rw [h8, h1, h2, h16, h3, h4, h5, Nat.shiftLeft_eq]
  have h6 : 16 * (n / 128) * 2 ^ 3 = 2 ^ 7 * (n / 128) := by ring
  have hor2 : (2 ^ 7) * (n / 128) + n % 128 = (2 ^ 7) * (n / 128) ||| n % 128 :=
    Nat.mul_add_lt_is_or (by omega) _
  rw [h6, ← hor2]
  omega

/-- Decoding a hi/lo byte pair produced by encoding recovers a 16-bit
value. -/
theorem nat_hilo_roundtrip (r : Nat) (hr : r < 65536) :
    (((((r >>> 8) &&& 255) &&& 255) <<< 8) ||| ((r &&& 255) &&& 255)) = r := by
  have h8 : r >>> 8 = r / 256 := by rw [Nat.shiftRight_eq_div_pow]
  have h1 : ((r / 256) &&& 255) &&& 255 = r / 256 := by
    rw [and_255_eq_mod, and_255_eq_mod]; omega
  have h2 : (r &&& 255) &&& 255 = r % 256 := by
    rw [and_255_eq_mod, and_255_eq_mod]; omega
  rw [h8, h1, h2, Nat.shiftLeft_eq]
  have h3 : r / 256 * 2 ^ 8 = 2 ^ 8 * (r / 256) := by ring
  have hor : (2 ^ 8) * (r / 256) + r % 256 = (2 ^ 8) * (r / 256) ||| r % 256 :=
    Nat.mul_add_lt_is_or (by omega) _
  rw [h3, ← hor]
  omega

end Elster

namespace Elster

/-! ### Computation lemmas for the codec -/

/-- Unfolds the request encoding to its five payload bytes. -/
theorem encode_req_eq (d r : Int) :
    encode_elster_data d r none =
      [ Int.lor (Int.land (Int.shiftRight d 3) 240) 1,
        Int.land d 127, 250,
        Int.land (Int.shiftRight r 8) 255, Int.land r 255 ] := rfl

/-- Unfolds the response encoding to its seven payload bytes. -/
theorem encode_resp_eq (d r v : Int) :
    encode_elster_data d r (some v) =
      [ Int.lor (Int.land (Int.shiftRight d 3) 240) 2,
        Int.land d 127, 250,
        Int.land (Int.shiftRight r 8) 255, Int.land r 255,
        Int.land (Int.shiftRight v 8) 255, Int.land v 255 ] := rfl

/-- Decoding an explicit five-byte frame with a good sentinel. -/
theorem decode5_eq (a b d e : Int) :
    decode_elster_data [a, b, 250, d, e] 5 =
      .ok (Int.land a 15,
           Int.lor ((Int.land a 240) <<< 3) (Int.land b 127),
           Int.lor ((Int.land d 255) <<< 8) (Int.land e 255), none) := rfl

/-- Decoding an explicit seven-byte frame with a good sentinel. -/
theorem decode7_eq (a b d e f g : Int) :
    decode_elster_data [a, b, 250, d, e, f, g] 7 =
      .ok (Int.land a 15,
           Int.lor ((Int.land a 240) <<< 3) (Int.land b 127),
           Int.lor ((Int.land d 255) <<< 8) (Int.land e 255),
           some (Int.lor ((Int.land f 255) <<< 8) (Int.land g 255))) := rfl

/-- C1, request half, stated over the naturals underlying the ints. -/
theorem roundtrip_req_nat (n r : Nat) (hn : n < 2048) (hr : r < 65536) :
    decode_elster_data (encode_elster_data (↑n) (↑r) none) 5 =
      .ok (TYPE_REQUEST, (↑n : Int), (↑r : Int), none) := by
  rw [encode_req_eq]
  have e0 : Int.lor (Int.land (Int.shiftRight ((n : Int)) 3) 240) 1 =
      ((((n >>> 3) &&& 240) ||| 1 : Nat) : Int) := rfl
  have e1 : Int.land ((n : Int)) 127 = ((n &&& 127 : Nat) : Int) := rfl
  have e3 : Int.land (Int.shiftRight ((r : Int)) 8) 255 =
      (((r >>> 8) &&& 255 : Nat) : Int) := rfl
  have e4 : Int.land ((r : Int)) 255 = ((r &&& 255 : Nat) : Int) := rfl
  rw [e0, e1, e3, e4, decode5_eq]
  have f0 : Int.land ((((n >>> 3) &&& 240) ||| 1 : Nat) : Int) 15 =
      (((((n >>> 3) &&& 240) ||| 1) &&& 15 : Nat) : Int) := rfl
  have f1 : Int.lor ((Int.land ((((n >>> 3) &&& 240) ||| 1 : Nat) : Int) 240) <<< 3)
        (Int.land ((n &&& 127 : Nat) : Int) 127) =
      (((((((n >>> 3) &&& 240) ||| 1) &&& 240) <<< 3) ||| ((n &&& 127) &&& 127) : Nat) : Int) := rfl
  have f2 : Int.lor ((Int.land (((r >>> 8) &&& 255 : Nat) : Int) 255) <<< 8)
        (Int.land ((r &&& 255 : Nat) : Int) 255) =
      ((((((r >>> 8) &&& 255) &&& 255) <<< 8) ||| ((r &&& 255) &&& 255) : Nat) : Int) := rfl
  rw [f0, f1, f2, nat_byte0_low n 1 hn (by omega),
      nat_receiver_roundtrip n 1 hn (by omega), nat_hilo_roundtrip r hr]
  rfl

end Elster

namespace Elster

/-- C1, response half, stated over the naturals underlying the ints. -/
theorem roundtrip_resp_nat (n r v : Nat) (hn : n < 2048) (hr : r < 65536)
    (hv : v < 65536) :
    decode_elster_data (encode_elster_data (↑n) (↑r) (some (↑v))) 7 =
      .ok (TYPE_RESPONSE, (↑n : Int), (↑r : Int), some (↑v : Int)) := by
  rw [encode_resp_eq]
  have e0 : Int.lor (Int.land (Int.shiftRight ((n : Int)) 3) 240) 2 =
      ((((n >>> 3) &&& 240) ||| 2 : Nat) : Int) := rfl
  have e1 : Int.land ((n : Int)) 127 = ((n &&& 127 : Nat) : Int) := rfl
  have e3 : Int.land (Int.shiftRight ((r : Int)) 8) 255 =
      (((r >>> 8) &&& 255 : Nat) : Int) := rfl
  have e4 : Int.land ((r : Int)) 255 = ((r &&& 255 : Nat) : Int) := rfl
  have e5 : Int.land (Int.shiftRight ((v : Int)) 8) 255 =
      (((v >>> 8) &&& 255 : Nat) : Int) := rfl
  have e6 : Int.land ((v : Int)) 255 = ((v &&& 255 : Nat) : Int) := rfl
  rw [e0, e1, e3, e4, e5, e6, decode7_eq]
  have f0 : Int.land ((((n >>> 3) &&& 240) ||| 2 : Nat) : Int) 15 =
      (((((n >>> 3) &&& 240) ||| 2) &&& 15 : Nat) : Int) := rfl
  have f1 : Int.lor ((Int.land ((((n >>> 3) &&& 240) ||| 2 : Nat) : Int) 240) <<< 3)
        (Int.land ((n &&& 127 : Nat) : Int) 127) =
      (((((((n >>> 3) &&& 240) ||| 2) &&& 240) <<< 3) ||| ((n &&& 127) &&& 127) : Nat) : Int) := rfl
  have f2 : Int.lor ((Int.land (((r >>> 8) &&& 255 : Nat) : Int) 255) <<< 8)
        (Int.land ((r &&& 255 : Nat) : Int) 255) =
      ((((((r >>> 8) &&& 255) &&& 255) <<< 8) ||| ((r &&& 255) &&& 255) : Nat) : Int) := rfl
  have f3 : Int.lor ((Int.land (((v >>> 8) &&& 255 : Nat) : Int) 255) <<< 8)
        (Int.land ((v &&& 255 : Nat) : Int) 255) =
      ((((((v >>> 8) &&& 255) &&& 255) <<< 8) ||| ((v &&& 255) &&& 255) : Nat) : Int) := rfl
  rw [f0, f1, f2, f3, nat_byte0_low n 2 hn (by omega),
      nat_receiver_roundtrip n 2 hn (by omega), nat_hilo_roundtrip r hr,
      nat_hilo_roundtrip v hv]
  rfl

/-- C1: decoding is the exact left-inverse of encoding.  For every
`destination_address` in `[0, 2047]` and `register_address` in
`[0, 65535]`, `decode(encode_request(d, r), 5)` returns
`(Request, d, r, no value)`, and for every `value` in `[0, 65535]`
decoding the 7-byte encoded response returns the same addresses
together with that value. -/
theorem c1_roundtrip (d r : Int) (hd0 : 0 ≤ d) (hd1 : d < 2048)
    (hr0 : 0 ≤ r) (hr1 : r < 65536) :
    decode_elster_data (encode_elster_data d r none) 5 =
      .ok (TYPE_REQUEST, d, r, none) ∧
    ∀ v : Int, 0 ≤ v → v < 65536 →
      decode_elster_data (encode_elster_data d r (some v)) 7 =
        .ok (TYPE_RESPONSE, d, r, some v) := by
  obtain ⟨n, rfl⟩ := Int.eq_ofNat_of_zero_le hd0
  obtain ⟨m, rfl⟩ := Int.eq_ofNat_of_zero_le hr0
  have hn : n < 2048 := by exact_mod_cast hd1
  have hm : m < 65536 := by exact_mod_cast hr1
  refine ⟨roundtrip_req_nat n m hn hm, ?_⟩
  intro v hv0 hv1
  obtain ⟨w, rfl⟩ := Int.eq_ofNat_of_zero_le hv0
  exact roundtrip_resp_nat n m w hn hm (by exact_mod_cast hv1)

/-- Witness for C1 at the repository's own test vectors
(`receiver = 0x123`, `register = 0xdeaf`, `value = 0xbabe`). -/
theorem c1_roundtrip_witness :
    (0 : Int) ≤ 0x123 ∧ (0x123 : Int) < 2048 ∧ (0 : Int) ≤ 0xdeaf ∧
      (0xdeaf : Int) < 65536 ∧
    decode_elster_data (encode_elster_data 0x123 0xdeaf none) 5 =
      .ok (TYPE_REQUEST, 0x123, 0xdeaf, none) ∧
    decode_elster_data (encode_elster_data 0x123 0xdeaf (some 0xbabe)) 7 =
      .ok (TYPE_RESPONSE, 0x123, 0xdeaf, some 0xbabe) :=
  ⟨by norm_num, by norm_num, by norm_num, by norm_num,
   (c1_roundtrip 0x123 0xdeaf (by norm_num) (by norm_num) (by norm_num)
     (by norm_num)).1,
   (c1_roundtrip 0x123 0xdeaf (by norm_num) (by norm_num) (by norm_num)
     (by norm_num)).2 0xbabe (by norm_num) (by norm_num)⟩

end Elster

namespace Elster

/-- A CAN message as the transport delivers it: the arbitration id is
the out-of-band source address, `data` is the payload. -/
structure CanMsg where
  arbitration_id : Int
  data : List Int
deriving DecidableEq, Repr

/-- The fields an `ElsterMessage` object carries after `__init__`:
`sender` (arbitration id), decoded `type`, `receiver`, `register`,
optional `value`, the display format `fmt`, and the payload `data`. -/
structure ElsterMessage where
  sender : Int
  receiver : Int
  register : Int
  type : Int
  value : Option Int
  fmt : Option String
  data : List Int
deriving DecidableEq, Repr

/-- Embeds `ElsterMessage.__init__` for the `msg`-given branch
(`if msg:` true): `sender = msg.arbitration_id` and
`type, receiver, register, value = decode_elster_data(msg.data)` with
the default `size=7`.  Decode exceptions propagate out of the
constructor. -/
def ElsterMessage.fromMsg (msg : CanMsg) (fmt : Option String) :
    Except PyError ElsterMessage :=
  match decode_elster_data msg.data 7 with
  | .error e => .error e
  | .ok (t, rec, reg, val) =>
    .ok { sender := msg.arbitration_id, receiver := rec, register := reg,
          type := t, value := val, fmt := fmt, data := msg.data }

/-- Embeds `ElsterMessage.__init__` for the request branch (`msg`
falsy): the message type is `TYPE_REQUEST`, the value absent, and the
payload is `encode_elster_data(receiver, register)`. -/
def ElsterMessage.request (sender receiver register : Int)
    (fmt : Option String) : ElsterMessage :=
  { sender := sender, receiver := receiver, register := register,
    type := TYPE_REQUEST, value := none, fmt := fmt,
    data := encode_elster_data receiver register none }

/-- The constructor call `ElsterMessage(msg=m, fmt=fmt)` inside
`ElsterBus.read`'s receive loop.  When the transport's `recv` times
out it returns `None`; `if msg:` is then false and the constructor
takes the request branch with `receiver=None` and `register=None`, so
`encode_elster_data(None, None)` evaluates `None >> 3` and raises
`TypeError`. -/
def loopMessage (m : Option CanMsg) (fmt : Option String) :
    Except PyError ElsterMessage :=
  match m with
  | none => .error .typeError
  | some msg => ElsterMessage.fromMsg msg fmt

/-- The outcome of a run of `ElsterBus.read`: a returned message, a
raised exception, or a run that consumed every scheduled transport
event while the deadline had not yet passed (the schedule was too
short to determine the result). -/
inductive ReadOutcome where
  | success (msg : ElsterMessage)
  | error (e : PyError)
  | outOfEvents
deriving DecidableEq, Repr

/-- One call to the transport's `recv`: it returns after `duration`
seconds with `some` frame, or with `none` if its own timeout elapsed. -/
structure RecvEvent where
  duration : Nat
  msg : Option CanMsg
deriving DecidableEq, Repr

/-- Embeds the receive loop of `ElsterBus.read`:

```
start_time = time.time()
while time.time() < (start_time + timeout):
    m = self.bus.recv(timeout=timeout)
    try:
        msg = ElsterMessage(msg=m, fmt=fmt)
        if msg.type == TYPE_RESPONSE and msg.sender == receiver and msg.receiver == self.sender:
            return msg
    except ElsterError as e:
        print(e)
raise ElsterReadTimedOut(...)
```

The wall clock is a natural number of elapsed seconds with
`start_time = 0`, so the deadline is `timeout` and the loop guard is
`now < timeout`.  Each loop iteration consumes the next `RecvEvent`;
`recv` returns the event's frame after `event.duration` seconds.  The
second component of the result records, for each `recv` invocation,
the pair `(timeout argument passed to recv, clock time at the call)`
-- the source passes the full original `timeout` on every iteration.
Only `ElsterError` is caught; any other exception propagates. -/
def readLoop (sender receiver : Int) (fmt : Option String) (timeout : Nat) :
    Nat → List RecvEvent → ReadOutcome × List (Nat × Nat)
  | now, events =>
    if now < timeout then
      match events with
      | [] => (.outOfEvents, [])
      | e :: rest =>
        let call := (timeout, now)
        match loopMessage e.msg fmt with
        | .error (.elster _) =>
          let r := readLoop sender receiver fmt timeout (now + e.duration) rest
          (r.1, call :: r.2)
        | .error err => (.error err, [call])
        | .ok msg =>
          if msg.type = TYPE_RESPONSE ∧ msg.sender = receiver ∧ msg.receiver = sender then
            (.success msg, [call])
          else
            let r := readLoop sender receiver fmt timeout (now + e.duration) rest
            (r.1, call :: r.2)
    else (.error (.elster .readTimedOut), [])

/-- Embeds `ElsterBus.read(receiver=..., register=..., fmt=..., timeout=...)`
after the request has been sent: the wait for the response is the
receive loop started at clock time `0`. -/
def read (sender receiver register : Int) (fmt : Option String)
    (timeout : Nat) (events : List RecvEvent) : ReadOutcome × List (Nat × Nat) :=
  readLoop sender receiver fmt timeout 0 events

end Elster

namespace Elster

/-- A list of length 7 is an explicit seven-element list. -/
theorem exists_seven (data : List Int) (h : data.length = 7) :
    ∃ a b c d e f g, data = [a, b, c, d, e, f, g] := by
  rcases data with _ | ⟨a, _ | ⟨b, _ | ⟨c, _ | ⟨d, _ | ⟨e, _ | ⟨f, _ | ⟨g, _ | ⟨x, t⟩⟩⟩⟩⟩⟩⟩⟩ <;>
    simp_all

/-- Decoding with the loop's expected size 7 can only raise the two
`ElsterError` subclasses: a 7-byte frame has all accessed indices in
range, so no `IndexError` is possible. -/
theorem decode7_error_elster (data : List Int) (e : PyError)
    (h : decode_elster_data data 7 = .error e) :
    e = .elster .dataSizeError ∨ e = .elster .dataByte2Error := by
  by_cases hl : data.length = 7
  · obtain ⟨a, b, c, d, e2, f, g, rfl⟩ := exists_seven data hl
    by_cases hc : c = 0xfa
    · subst hc
      rw [decode7_eq] at h
      exact absurd h (by simp)
    · right
      simp [decode_elster_data, hc] at h
      exact h.symm
  · left
    simp [decode_elster_data, hl] at h
    exact h.symm

end Elster

namespace Elster

/-- A decoding failure inside `ElsterMessage.__init__` is exactly a
failure of `decode_elster_data` on the frame payload. -/
theorem fromMsg_error_eq (m : CanMsg) (fmt : Option String) (x : PyError)
    (h : ElsterMessage.fromMsg m fmt = .error x) :
    decode_elster_data m.data 7 = .error x := by
  rcases hd : decode_elster_data m.data 7 with e | v
  · rw [ElsterMessage.fromMsg, hd] at h
    simpa using h
  · rw [ElsterMessage.fromMsg, hd] at h
    rcases v with ⟨t, rec, reg, val⟩
    simp at h

/-- C2, counterexample.  With `timeout = 30` and two stray frames
arriving after 10 seconds each, the loop calls `recv` a second time at
clock time 10 but passes the full original timeout 30, not the
remaining 20 seconds: the recorded calls are `[(30, 0), (30, 10)]`. -/
theorem c2_counterexample :
    (read 0x123 0x180 0xdeaf none 30
        [⟨10, some ⟨0x999, [0, 0, 0, 0, 0, 0, 0]⟩⟩,
         ⟨10, some ⟨0x999, [0, 0, 0, 0, 0, 0, 0]⟩⟩]).2 = [(30, 0), (30, 10)] ∧
    ∃ c ∈ (read 0x123 0x180 0xdeaf none 30
        [⟨10, some ⟨0x999, [0, 0, 0, 0, 0, 0, 0]⟩⟩,
         ⟨10, some ⟨0x999, [0, 0, 0, 0, 0, 0, 0]⟩⟩]).2, c.1 ≠ 30 - c.2 := by
  decide

/-- C2, amended: every `recv` invocation inside the receive loop is
passed the full original `timeout`, never a shrunk remaining budget;
the wall-clock deadline is only consulted by the loop guard, so each
invocation happens strictly before the deadline but may then block for
the full timeout again. -/
theorem c2_amended (sender receiver : Int) (fmt : Option String) (timeout : Nat) :
    ∀ events now, ∀ c ∈ (readLoop sender receiver fmt timeout now events).2,
      c.1 = timeout ∧ c.2 < timeout := by
  intro events
  induction events with
  | nil =>
    intro now c hc
    simp only [readLoop] at hc
    split at hc <;> simp_all
  | cons e rest ih =>
    intro now c hc
    simp only [readLoop] at hc
    split at hc
    · split at hc
      · rcases List.mem_cons.mp hc with h1 | h1
        · subst h1; exact ⟨rfl, by assumption⟩
        · exact ih _ _ h1
      · rcases List.mem_cons.mp hc with h1 | h1
        · subst h1; exact ⟨rfl, by assumption⟩
        · simp at h1
      · split at hc
        · rcases List.mem_cons.mp hc with h1 | h1
          · subst h1; exact ⟨rfl, by assumption⟩
          · simp at h1
        · rcases List.mem_cons.mp hc with h1 | h1
          · subst h1; exact ⟨rfl, by assumption⟩
          · exact ih _ _ h1
    · simp_all

/-- C3: evaluating the code at the failing run.  If the transport's
`recv` signals its own timeout by returning no frame, `read` raises
`TypeError` (from `ElsterMessage(msg=None)` falling into the request
branch and evaluating `None >> 3`), not `ElsterReadTimedOut`; the
latter is reached only when stray frames keep arriving until past the
deadline. -/
theorem c3_read_silent_transport :
    (read 0x123 0x180 0xdeaf none 30 [⟨30, none⟩]).1 = .error .typeError ∧
    (read 0x123 0x180 0xdeaf none 30 [⟨30, none⟩]).1 ≠
      .error (.elster .readTimedOut) ∧
    (read 0x123 0x180 0xdeaf none 30 [⟨40, some ⟨0x999, [0, 0, 0, 0, 0, 0, 0]⟩⟩]).1 =
      .error (.elster .readTimedOut) := by
  decide

/-- C5: any `ElsterError` raised while constructing an
`ElsterMessage` from a received frame (size mismatch, sentinel
mismatch) is caught by the loop's `except ElsterError` handler and the
scan continues with the remaining events; consequently the only
exceptions that can escape the loop are the `TypeError` of the
`recv`-returned-`None` slip and the final `ElsterReadTimedOut` — no
decoding failure of a received frame propagates out of `read`. -/
theorem c5_decode_errors_caught :
    (∀ (sender receiver : Int) (fmt : Option String) (timeout now dur : Nat)
        (m : CanMsg) (err : ElsterErr) (rest : List RecvEvent),
      now < timeout →
      ElsterMessage.fromMsg m fmt = .error (.elster err) →
      (readLoop sender receiver fmt timeout now (⟨dur, some m⟩ :: rest)).1 =
        (readLoop sender receiver fmt timeout (now + dur) rest).1) ∧
    (∀ (sender receiver : Int) (fmt : Option String) (timeout : Nat)
        (events : List RecvEvent) (now : Nat) (e : PyError),
      (readLoop sender receiver fmt timeout now events).1 = .error e →
      e = .typeError ∨ e = .elster .readTimedOut) := by
  constructor
  · intro sender receiver fmt timeout now dur m err rest hlt hm
    simp only [readLoop, loopMessage, hm]
    split <;> simp_all
  · intro sender receiver fmt timeout events
    induction events with
    | nil =>
      intro now e he
      simp only [readLoop] at he
      split at he <;> simp_all
    | cons ev rest ih =>
      intro now e he
      by_cases hlt : now < timeout
      · simp only [readLoop] at he
        rw [if_pos hlt] at he
        cases hevm : ev.msg with
        | none =>
          rw [hevm] at he
          simp only [loopMessage] at he
          simp at he
          exact .inl he.symm
        | some m =>
          rw [hevm] at he
          simp only [loopMessage] at he
          rcases hfm : ElsterMessage.fromMsg m fmt with x | msg
          · have hdx : decode_elster_data m.data 7 = .error x :=
              fromMsg_error_eq m fmt x hfm
            rcases decode7_error_elster m.data x hdx with h1 | h1 <;>
              (subst h1; rw [hfm] at he; exact ih _ _ (by simpa using he))
          · rw [hfm] at he
            simp only [] at he
            split at he
            · simp at he
            · exact ih _ _ (by simpa using he)
      · simp only [readLoop] at he
        rw [if_neg hlt] at he
        simp at he
        exact .inr he.symm

/-- Witness for C5: a sentinel-mismatch frame is caught and skipped. -/
theorem c5_decode_errors_caught_witness :
    (0 : Nat) < 30 ∧
    ElsterMessage.fromMsg ⟨0x999, [0, 0, 0, 0, 0, 0, 0]⟩ none =
      .error (.elster .dataByte2Error) ∧
    (readLoop 0x123 0x180 none 30 0
        [⟨10, some ⟨0x999, [0, 0, 0, 0, 0, 0, 0]⟩⟩]).1 =
      (readLoop 0x123 0x180 none 30 (0 + 10) []).1 :=
  ⟨by decide, by rfl,
   c5_decode_errors_caught.1 0x123 0x180 none 30 0 10
     ⟨0x999, [0, 0, 0, 0, 0, 0, 0]⟩ .dataByte2Error [] (by decide) (by rfl)⟩

/-- The session's acceptance test for a received frame, from the loop
condition `msg.type == TYPE_RESPONSE and msg.sender == receiver and
msg.receiver == self.sender`: the frame decodes as a 7-byte frame, its
message kind is `Response`, its transport-level source address equals
the requested destination, and its decoded receiver address equals the
session's own source address. -/
def accepts (sender receiver : Int) (m : CanMsg) : Bool :=
  match decode_elster_data m.data 7 with
  | .ok (t, rec, _, _) =>
    t == TYPE_RESPONSE && m.arbitration_id == receiver && rec == sender
  | .error _ => false

theorem accepts_of_fromMsg_ok (sender receiver : Int) (m : CanMsg)
    (fmt : Option String) (msg : ElsterMessage)
    (h : ElsterMessage.fromMsg m fmt = .ok msg) :
    accepts sender receiver m = true ↔
      (msg.type = TYPE_RESPONSE ∧ msg.sender = receiver ∧ msg.receiver = sender) := by
  rcases hd : decode_elster_data m.data 7 with e | ⟨t, rec, reg, val⟩
  · rw [ElsterMessage.fromMsg, hd] at h
    simp at h
  · rw [ElsterMessage.fromMsg, hd] at h
    simp only [Except.ok.injEq] at h
    subst h
    rw [accepts, hd]
    simp [and_assoc]

theorem accepts_false_of_decode_error (sender receiver : Int) (m : CanMsg)
    (e : PyError) (h : decode_elster_data m.data 7 = .error e) :
    accepts sender receiver m = false := by
  rw [accepts, h]

/-- If the head frame is not accepted, the first-accepted-frame
decomposition of `f :: frames` is that of `frames`. -/
theorem firstAccept_cons_false (sender receiver : Int) (fmt : Option String)
    (msg : ElsterMessage) (f : CanMsg) (frames : List CanMsg)
    (hacc : accepts sender receiver f = false) :
    (∃ pre m post, f :: frames = pre ++ m :: post ∧
        (∀ m2 ∈ pre, accepts sender receiver m2 = false) ∧
        accepts sender receiver m = true ∧
        ElsterMessage.fromMsg m fmt = .ok msg) ↔
    (∃ pre m post, frames = pre ++ m :: post ∧
        (∀ m2 ∈ pre, accepts sender receiver m2 = false) ∧
        accepts sender receiver m = true ∧
        ElsterMessage.fromMsg m fmt = .ok msg) := by
  constructor
  · rintro ⟨pre, m, post, heq, hpre, hm, hok⟩
    cases pre with
    | nil =>
      simp at heq
      rw [heq.1] at hacc
      rw [hm] at hacc
      exact absurd hacc (by simp)
    | cons p pre2 =>
      simp at heq
      exact ⟨pre2, m, post, heq.2, fun m2 hm2 => hpre m2 (by simp [hm2]), hm, hok⟩
  · rintro ⟨pre, m, post, heq, hpre, hm, hok⟩
    refine ⟨f :: pre, m, post, by rw [heq]; rfl, ?_, hm, hok⟩
    intro m2 hm2
    rcases List.mem_cons.mp hm2 with h1 | h1
    · rw [h1]; exact hacc
    · exact hpre m2 h1

/-- If the head frame is accepted and decodes to `msg2`, the
first-accepted-frame decomposition of `f :: frames` yields exactly
`msg2`. -/
theorem firstAccept_cons_true (sender receiver : Int) (fmt : Option String)
    (msg msg2 : ElsterMessage) (f : CanMsg) (frames : List CanMsg)
    (hacc : accepts sender receiver f = true)
    (hok : ElsterMessage.fromMsg f fmt = .ok msg2) :
    (∃ pre m post, f :: frames = pre ++ m :: post ∧
        (∀ m2 ∈ pre, accepts sender receiver m2 = false) ∧
        accepts sender receiver m = true ∧
        ElsterMessage.fromMsg m fmt = .ok msg) ↔ msg = msg2 := by
  constructor
  · rintro ⟨pre, m, post, heq, hpre, hm, hok2⟩
    cases pre with
    | nil =>
      simp at heq
      rw [heq.1] at hok
      exact Except.ok.inj (hok2.symm.trans hok)
    | cons p pre2 =>
      simp at heq
      have hp := hpre p (by simp)
      rw [← heq.1] at hp
      rw [hacc] at hp
      exact absurd hp (by simp)
  · intro h
    subst h
    exact ⟨[], f, frames, rfl, by simp, hacc, hok⟩

end Elster

namespace Elster

/-- C4, loop form: with every frame arriving instantly, the loop
returns `msg` exactly when `msg` decodes from the first accepted frame
and every earlier frame is discarded. -/
theorem c4_aux (sender receiver : Int) (fmt : Option String) (timeout : Nat)
    (ht : 0 < timeout) (msg : ElsterMessage) :
    ∀ frames : List CanMsg,
      ((readLoop sender receiver fmt timeout 0
          (frames.map (fun m => ⟨0, some m⟩))).1 = .success msg ↔
        ∃ pre m post, frames = pre ++ m :: post ∧
          (∀ m2 ∈ pre, accepts sender receiver m2 = false) ∧
          accepts sender receiver m = true ∧
          ElsterMessage.fromMsg m fmt = .ok msg) := by
  intro frames
  induction frames with
  | nil =>
    simp only [List.map_nil, readLoop]
    rw [if_pos ht]
    constructor
    · intro h
      exact absurd h (by simp)
    · rintro ⟨pre, m, post, habs, -⟩
      cases pre <;> simp_all
  | cons f frames ih =>
    simp only [List.map_cons, readLoop]
    rw [if_pos ht]
    simp only [loopMessage]
    rcases hfm : ElsterMessage.fromMsg f fmt with x | msg2
    · have hdx := fromMsg_error_eq f fmt x hfm
      have hacc : accepts sender receiver f = false :=
        accepts_false_of_decode_error sender receiver f x hdx
      rcases decode7_error_elster f.data x hdx with h1 | h1 <;> subst h1 <;>
        (rw [firstAccept_cons_false sender receiver fmt msg f frames hacc];
         simpa using ih)
    · by_cases hcond : msg2.type = TYPE_RESPONSE ∧ msg2.sender = receiver ∧
          msg2.receiver = sender
      · have hacc : accepts sender receiver f = true :=
          (accepts_of_fromMsg_ok sender receiver f fmt msg2 hfm).mpr hcond
        rw [firstAccept_cons_true sender receiver fmt msg msg2 f frames hacc hfm]
        simp only [if_pos hcond]
        constructor
        · intro h
          simpa using h.symm
        · intro h
          subst h
          rfl
      · have hacc : accepts sender receiver f = false := by
          rcases hb : accepts sender receiver f with - | -
          · rfl
          · exact absurd ((accepts_of_fromMsg_ok sender receiver f fmt msg2
              hfm).mp hb) hcond
        rw [firstAccept_cons_false sender receiver fmt msg f frames hacc]
        simp only [if_neg hcond]
        simpa using ih

/-- C4: `read` returns a decoded frame exactly when it is the first
incoming frame whose message kind is `Response`, whose transport-level
source address equals the requested destination address, and whose
decoded receiver address equals the session's own source address;
every other successfully decoded frame (wrong kind, wrong source or
wrong destination) and every undecodable frame is discarded and the
scan continues without aborting the read. -/
theorem c4_first_matching_response (sender receiver register : Int)
    (fmt : Option String) (timeout : Nat) (frames : List CanMsg)
    (msg : ElsterMessage) (ht : 0 < timeout) :
    (read sender receiver register fmt timeout
        (frames.map (fun m => ⟨0, some m⟩))).1 = .success msg ↔
      ∃ pre m post, frames = pre ++ m :: post ∧
        (∀ m2 ∈ pre, accepts sender receiver m2 = false) ∧
        accepts sender receiver m = true ∧
        ElsterMessage.fromMsg m fmt = .ok msg := by
  rw [read]
  exact c4_aux sender receiver fmt timeout ht msg frames

/-- Witness for C4 at the repository's own `test_read` scenario: a
sentinel-broken stray frame followed by the matching response
`(source=0x180, kind=Response, register=0xdeaf, value=0xdead)`
addressed back to session source `0x123`. -/
theorem c4_first_matching_response_witness :
    (0 : Nat) < 30 ∧
    ((read 0x123 0x180 0xdeaf none 30
        ([⟨0x999, [0, 0, 0, 0, 0, 0, 0]⟩,
          ⟨0x180, [0x22, 0x23, 0xfa, 0xde, 0xaf, 0xde, 0xad]⟩].map
            (fun m => ⟨0, some m⟩))).1 =
      .success ⟨0x180, 0x123, 0xdeaf, TYPE_RESPONSE, some 0xdead, none,
        [0x22, 0x23, 0xfa, 0xde, 0xaf, 0xde, 0xad]⟩ ↔
      ∃ pre m post,
        [⟨0x999, [0, 0, 0, 0, 0, 0, 0]⟩,
         ⟨0x180, [0x22, 0x23, 0xfa, 0xde, 0xaf, 0xde, 0xad]⟩] =
          pre ++ m :: post ∧
        (∀ m2 ∈ pre, accepts 0x123 0x180 m2 = false) ∧
        accepts 0x123 0x180 m = true ∧
        ElsterMessage.fromMsg m none =
          .ok ⟨0x180, 0x123, 0xdeaf, TYPE_RESPONSE, some 0xdead, none,
            [0x22, 0x23, 0xfa, 0xde, 0xaf, 0xde, 0xad]⟩) :=
  ⟨by decide,
   c4_first_matching_response 0x123 0x180 0xdeaf none 30
     [⟨0x999, [0, 0, 0, 0, 0, 0, 0]⟩,
      ⟨0x180, [0x22, 0x23, 0xfa, 0xde, 0xaf, 0xde, 0xad]⟩]
     ⟨0x180, 0x123, 0xdeaf, TYPE_RESPONSE, some 0xdead, none,
      [0x22, 0x23, 0xfa, 0xde, 0xaf, 0xde, 0xad]⟩ (by decide)⟩

end Elster

namespace Elster

/-- C6, counterexample: a frame of matching expected size 3 whose byte
index 2 is the sentinel `0xfa` does not decode successfully -- the
register read `data[3]` raises `IndexError`. -/
theorem c6_counterexample :
    decode_elster_data [0, 0, 0xfa] 3 = .error .indexError ∧
    ¬ ∃ v, decode_elster_data [0, 0, 0xfa] 3 = .ok v := by
  constructor
  · rfl
  · rintro ⟨v, hv⟩
    rw [show decode_elster_data [0, 0, 0xfa] 3 = .error .indexError from rfl] at hv
    exact absurd hv (by simp)

/-- C6, amended: `decode` fails with `FrameSizeError` exactly when the
length differs from `expected_size`; fails with `FrameSentinelError`
exactly when the length matches and byte index 2 exists but is not
`0xfa`; and succeeds exactly when the length matches, is at least 5,
and byte index 2 is `0xfa` -- in particular success never constrains
the low nibble of byte 0 (the message kind is not validated), and
matching lengths below 5 fail with an index error instead of
succeeding. -/
theorem c6_amended (data : List Int) (size : Nat) :
    (decode_elster_data data size = .error (.elster .dataSizeError) ↔
       data.length ≠ size) ∧
    (decode_elster_data data size = .error (.elster .dataByte2Error) ↔
       (data.length = size ∧ ∃ x, data[2]? = some x ∧ x ≠ 0xfa)) ∧
    ((∃ v, decode_elster_data data size = .ok v) ↔
       (data.length = size ∧ 5 ≤ data.length ∧ data[2]? = some 0xfa)) := by
  by_cases hl : data.length = size
  · subst hl
    by_cases h2lt : 2 < data.length
    · have h2 : data[2]? = some data[2] := List.getElem?_eq_getElem h2lt
      by_cases hy : data[2] = 0xfa
      · by_cases h5 : 5 ≤ data.length
        · have h0 : data[0]? = some data[0] := List.getElem?_eq_getElem (by omega)
          have h1 : data[1]? = some data[1] := List.getElem?_eq_getElem (by omega)
          have h3 : data[3]? = some data[3] := List.getElem?_eq_getElem (by omega)
          have h4 : data[4]? = some data[4] := List.getElem?_eq_getElem (by omega)
          by_cases h7 : data.length = 7
          · have hg5 : data[5]? = some data[5] := List.getElem?_eq_getElem (by omega)
            have hg6 : data[6]? = some data[6] := List.getElem?_eq_getElem (by omega)
            refine ⟨?_, ?_, ?_⟩ <;>
              simp [decode_elster_data, h2, hy, h0, h1, h3, h4, h7, hg5, hg6, h5]
          · refine ⟨?_, ?_, ?_⟩ <;>
              simp [decode_elster_data, h2, hy, h0, h1, h3, h4, h7, h5]
        · have hlen : data.length = 3 ∨ data.length = 4 := by omega
          have h0 : data[0]? = some data[0] := List.getElem?_eq_getElem (by omega)
          have h1 : data[1]? = some data[1] := List.getElem?_eq_getElem (by omega)
          rcases hlen with hlen | hlen
          · have h3 : data[3]? = none := List.getElem?_eq_none (by omega)
            refine ⟨?_, ?_, ?_⟩ <;>
              simp [decode_elster_data, h2, hy, h0, h1, h3, h5]
          · have h3 : data[3]? = some data[3] := List.getElem?_eq_getElem (by omega)
            have h4 : data[4]? = none := List.getElem?_eq_none (by omega)
            refine ⟨?_, ?_, ?_⟩ <;>
              simp [decode_elster_data, h2, hy, h0, h1, h3, h4, h5]
      · refine ⟨?_, ?_, ?_⟩ <;> simp [decode_elster_data, h2, hy]
    · have h2 : data[2]? = none := List.getElem?_eq_none (by omega)
      refine ⟨?_, ?_, ?_⟩ <;> simp [decode_elster_data, h2]
  · refine ⟨?_, ?_, ?_⟩ <;> simp [decode_elster_data, hl]

end Elster

namespace Elster

/-- `Nat.ldiff` never sets a bit that its first argument does not set. -/
theorem ldiff_le_left (n m : Nat) : Nat.ldiff n m ≤ n := by
  refine Nat.le_of_testBit ?_
  intro i hi
  rw [Nat.testBit_ldiff] at hi
  exact (Bool.and_eq_true _ _ |>.mp hi).1

/-- Python's `x & mask` with a nonnegative mask lands in `[0, mask]`
for every integer `x`, including negative ones (two's complement). -/
theorem int_land_mask_bounds (x n : Int) (hn : 0 ≤ n) :
    0 ≤ Int.land x n ∧ Int.land x n ≤ n := by
  obtain ⟨m, rfl⟩ := Int.eq_ofNat_of_zero_le hn
  cases x with
  | ofNat k =>
    have h : Int.land (Int.ofNat k) (↑m) = ((k &&& m : Nat) : Int) := rfl
    rw [h]
    exact ⟨Int.natCast_nonneg _, by exact_mod_cast Nat.and_le_right⟩
  | negSucc k =>
    have h : Int.land (Int.negSucc k) (↑m) = ((Nat.ldiff m k : Nat) : Int) := rfl
    rw [h]
    exact ⟨Int.natCast_nonneg _, by exact_mod_cast ldiff_le_left m k⟩

/-- Python's `a | b` of two values in `[0, 255]` stays in `[0, 255]`. -/
theorem int_lor_byte_bounds (a b : Int) (ha0 : 0 ≤ a) (hb0 : 0 ≤ b)
    (ha : a ≤ 255) (hb : b ≤ 255) :
    0 ≤ Int.lor a b ∧ Int.lor a b ≤ 255 := by
  obtain ⟨x, rfl⟩ := Int.eq_ofNat_of_zero_le ha0
  obtain ⟨y, rfl⟩ := Int.eq_ofNat_of_zero_le hb0
  have h : Int.lor (↑x) (↑y) = ((x ||| y : Nat) : Int) := rfl
  rw [h]
  refine ⟨Int.natCast_nonneg _, ?_⟩
  have hx : x < 2 ^ 8 := by omega
  have hy : y < 2 ^ 8 := by omega
  have := Nat.or_lt_two_pow hx hy
  exact_mod_cast Nat.le_of_lt_succ (by omega)

/-- C10: for all integer arguments, including out-of-range and
negative ones, `encode_elster_data` yields a list of length 5 (no
value) or 7 (value present), every element lies in `[0, 255]`, and the
element at index 2 is the sentinel `0xfa`. -/
theorem c10_encode_invariants (receiver register : Int) (value : Option Int) :
    ((encode_elster_data receiver register value).length =
       match value with | none => 5 | some _ => 7) ∧
    (∀ b ∈ encode_elster_data receiver register value, 0 ≤ b ∧ b ≤ 255) ∧
    (encode_elster_data receiver register value)[2]? = some 0xfa := by
  have h1 := int_land_mask_bounds (Int.shiftRight receiver 3) 240 (by norm_num)
  have hb1 := int_land_mask_bounds receiver 127 (by norm_num)
  have hb3 := int_land_mask_bounds (Int.shiftRight register 8) 255 (by norm_num)
  have hb4 := int_land_mask_bounds register 255 (by norm_num)
  cases value with
  | none =>
    have hb0 := int_lor_byte_bounds (Int.land (Int.shiftRight receiver 3) 240) 1
      h1.1 (by norm_num) (by omega) (by norm_num)
    rw [encode_req_eq]
    refine ⟨rfl, ?_, rfl⟩
    intro b hb
    simp only [List.mem_cons, List.not_mem_nil, or_false] at hb
    rcases hb with rfl | rfl | rfl | rfl | rfl
    · exact hb0
    · exact ⟨hb1.1, by omega⟩
    · norm_num
    · exact hb3
    · exact hb4
  | some v =>
    have hb0 := int_lor_byte_bounds (Int.land (Int.shiftRight receiver 3) 240) 2
      h1.1 (by norm_num) (by omega) (by norm_num)
    have hb5 := int_land_mask_bounds (Int.shiftRight v 8) 255 (by norm_num)
    have hb6 := int_land_mask_bounds v 255 (by norm_num)
    rw [encode_resp_eq]
    refine ⟨rfl, ?_, rfl⟩
    intro b hb
    simp only [List.mem_cons, List.not_mem_nil, or_false] at hb
    rcases hb with rfl | rfl | rfl | rfl | rfl | rfl | rfl
    · exact hb0
    · exact ⟨hb1.1, by omega⟩
    · norm_num
    · exact hb3
    · exact hb4
    · exact hb5
    · exact hb6

end Elster

namespace Elster

/-- A Python value as produced by `formatted_value`: the raw integer
(no format), a rendered string, or Python's `None` (a request message
with no value and no format). -/
inductive PyVal where
  | int (v : Int)
  | str (s : String)
  | pynone
deriving DecidableEq, Repr

/-- Exact-decimal model of the f-string `f"{(value / 10.0):.1f}"`.
Python divides in IEEE double precision; for `0 ≤ value ≤ 65535` the
double nearest to `value / 10` is within `8e-13` of it, so rounding to
one fractional digit recovers the exact decimal `value / 10`, which is
what this renders with integer arithmetic. -/
def renderDiv10 (v : Int) : String :=
  toString (v / 10) ++ "." ++ toString (v % 10)

/-- Zero-pads a fractional part to three digits, as `:.3f` does. -/
def pad3 (r : Int) : String :=
  let s := toString r
  if s.length < 3 then String.mk (List.replicate (3 - s.length) (Char.ofNat 48)) ++ s
  else s

/-- Exact-decimal model of the f-string `f"{(value / 1000.0):.3f}"`;
exact for `0 ≤ value ≤ 65535` for the same reason as `renderDiv10`. -/
def renderDiv1000 (v : Int) : String :=
  toString (v / 1000) ++ "." ++ pad3 (v % 1000)

/-- Embeds the `formatted_value` property of `ElsterMessage`:

```
if not self.fmt:
    return self.value
return {
    "dec_val": f"{(self.value / 10.0):.1f}",
    "mil_val": f"{(self.value / 1000.0):.3f}",
    "little_endian": f"{(((self.value & 0xff) << 8) | (self.value >> 8)):d}",
}[self.fmt]
```

`if not self.fmt` is true for a missing format and for the empty
string.  Otherwise Python builds the dict -- evaluating all three
f-strings, which raises `TypeError` when `self.value` is `None` --
and then subscripts it, raising `KeyError` for any other format
name.  The spec's names map to the source's strings:
`tenths_decimal = "dec_val"`, `thousandths_decimal = "mil_val"`,
`little_endian_swap = "little_endian"`. -/
def pyOfValue : Option Int → PyVal
  | none => .pynone
  | some v => .int v

def formatted_value (fmt : Option String) (value : Option Int) :
    Except PyError PyVal :=
  match fmt with
  | none => .ok (pyOfValue value)
  | some s =>
    if s = "" then .ok (pyOfValue value)
    else
      match value with
      | none => .error .typeError
      | some v =>
        if s = "dec_val" then .ok (.str (renderDiv10 v))
        else if s = "mil_val" then .ok (.str (renderDiv1000 v))
        else if s = "little_endian" then
          .ok (.str (toString (Int.lor ((Int.land v 0xff) <<< 8) (Int.shiftRight v 8))))
        else .error .keyError

/-- An entry of the `data` list of the YAML configuration: a symbolic
`name`, a composite `index` string `"HEX.HEX"`, and an optional
`format` string. -/
structure ConfigEntry where
  name : String
  index : String
  format : Option String
deriving DecidableEq, Repr

/-- Insertion into a Python dict: replaces the binding of an existing
key, else appends. -/
def dictInsert : List (String × ConfigEntry) → String → ConfigEntry →
    List (String × ConfigEntry)
  | [], k, v => [(k, v)]
  | (k2, v2) :: rest, k, v =>
    if k2 = k then (k, v) :: rest else (k2, v2) :: dictInsert rest k v

/-- Lookup in a Python dict (`dict.get`, `None` when absent). -/
def dictGet : List (String × ConfigEntry) → String → Option ConfigEntry
  | [], _ => none
  | (k2, v) :: rest, k => if k2 = k then some v else dictGet rest k

/-- Embeds the directory build in `ElsterBus.__init__`:
`self.config = {x["name"]: x for x in config["data"]}` -- a dict
comprehension inserting the entries in order, so a duplicate name
overwrites the earlier entry.  No validation of the `format` field
happens here. -/
def buildConfig (data : List ConfigEntry) : List (String × ConfigEntry) :=
  data.foldl (fun m e => dictInsert m e.name e) []

/-- The last entry of the list carrying the given name, which is the
binding a dict comprehension leaves in place. -/
def lastNamed : List ConfigEntry → String → Option ConfigEntry
  | [], _ => none
  | e :: rest, k =>
    match lastNamed rest k with
    | some r => some r
    | none => if e.name = k then some e else none

/-- Models Python's `str.split(".")`: cuts at every dot and keeps
empty pieces. -/
def splitChars : List Char → List Char → List (List Char)
  | [], acc => [acc.reverse]
  | c :: rest, acc =>
    if c = '.' then acc.reverse :: splitChars rest [] else splitChars rest (c :: acc)

def pySplitDot (s : String) : List String :=
  (splitChars s.data []).map (fun l => String.mk l)

def hexDigit (c : Char) : Option Nat :=
  if 48 ≤ c.toNat ∧ c.toNat ≤ 57 then some (c.toNat - 48)
  else if 97 ≤ c.toNat ∧ c.toNat ≤ 102 then some (c.toNat - 87)
  else if 65 ≤ c.toNat ∧ c.toNat ≤ 70 then some (c.toNat - 55)
  else none

/-- Models Python's `int(s, 16)` on the plain hexadecimal-digit
strings that occur in directory index fields (no sign, prefix,
underscores or whitespace); any other character fails (`ValueError`). -/
def int16 (s : String) : Option Int :=
  if s.data.isEmpty then none
  else (s.data.foldl
    (fun acc c =>
      match acc, hexDigit c with
      | some a, some d => some (16 * a + d)
      | _, _ => none)
    (some 0)).map (fun n => (n : Int))

/-- Embeds `ElsterBus.config_lookup`:

```
c = self.config.get(name)
if not c:
    raise ElsterInvalidName(...)
rec, reg = c["index"].split(".")
return int(rec, 16), int(reg, 16), c.get("format")
```

An index that does not split into exactly two pieces, or a piece that
is not a hex numeral, raises `ValueError`. -/
def config_lookup (cfg : List (String × ConfigEntry)) (name : String) :
    Except PyError (Int × Int × Option String) :=
  match dictGet cfg name with
  | none => .error (.elster .invalidName)
  | some c =>
    match pySplitDot c.index with
    | [rec, reg] =>
      match int16 rec, int16 reg with
      | some r1, some r2 => .ok (r1, r2, c.format)
      | _, _ => .error .valueError
    | _ => .error .valueError

end Elster

namespace Elster

/-- C7, counterexample: a directory entry with the unrecognized format
`"bogus"` loads without any failure -- the directory stores it and
`config_lookup` returns it -- and applying the format then fails with
`KeyError` at format-apply time. -/
theorem c7_counterexample :
    dictGet (buildConfig [⟨"X", "1.2", some "bogus"⟩]) "X" =
      some ⟨"X", "1.2", some "bogus"⟩ ∧
    config_lookup (buildConfig [⟨"X", "1.2", some "bogus"⟩]) "X" =
      .ok (1, 2, some "bogus") ∧
    formatted_value (some "bogus") (some 5) = .error .keyError :=
  ⟨by decide, by rfl, by rfl⟩

/-- C7, amended: the directory performs no format validation at load
time -- construction succeeds and stores any format string unchanged
-- and an unrecognized, non-empty format name fails at format-apply
time with a dictionary key lookup error. -/
theorem c7_no_load_time_validation :
    (∀ e : ConfigEntry, dictGet (buildConfig [e]) e.name = some e) ∧
    (∀ s : String, s ≠ "" → s ≠ "dec_val" → s ≠ "mil_val" →
      s ≠ "little_endian" → ∀ v : Int,
      formatted_value (some s) (some v) = .error .keyError) := by
  constructor
  · intro e
    simp [buildConfig, dictInsert, dictGet]
  · intro s h0 h1 h2 h3 v
    rw [formatted_value]
    rw [if_neg h0, if_neg h1, if_neg h2, if_neg h3]

/-- Witness for the amended C7 at the format string `"bogus"`. -/
theorem c7_no_load_time_validation_witness :
    ("bogus" : String) ≠ "" ∧ ("bogus" : String) ≠ "dec_val" ∧
    ("bogus" : String) ≠ "mil_val" ∧ ("bogus" : String) ≠ "little_endian" ∧
    formatted_value (some "bogus") (some 5) = .error .keyError :=
  ⟨by decide, by decide, by decide, by decide,
   c7_no_load_time_validation.2 "bogus" (by decide) (by decide) (by decide)
     (by decide) 5⟩

set_option maxRecDepth 100000 in
theorem pad3_length_of_lt : ∀ n : Nat, n < 1000 → (pad3 ((n : Nat) : Int)).length = 3 := by
  decide

theorem digit_length_of_lt : ∀ n : Nat, n < 10 → (toString ((n : Nat) : Int)).length = 1 := by
  decide

end Elster

namespace Elster

/-- C8: for every 16-bit value, the formatter with no format yields
the raw integer unmodified; `"dec_val"` (tenths_decimal) yields
`value / 10` rendered with exactly one fractional digit; `"mil_val"`
(thousandths_decimal) yields `value / 1000` rendered with exactly
three fractional digits; and `"little_endian"` (little_endian_swap)
yields the 16-bit byte swap `((value & 0xff) << 8) | (value >> 8)`
rendered as an integer.  Includes the spec's concrete vectors. -/
theorem c8_formats (v : Int) (h0 : 0 ≤ v) (h1 : v < 65536) :
    formatted_value none (some v) = .ok (.int v) ∧
    formatted_value (some "dec_val") (some v) =
      .ok (.str (toString (v / 10) ++ "." ++ toString (v % 10))) ∧
    (toString (v % 10)).length = 1 ∧
    formatted_value (some "mil_val") (some v) =
      .ok (.str (toString (v / 1000) ++ "." ++ pad3 (v % 1000))) ∧
    (pad3 (v % 1000)).length = 3 ∧
    formatted_value (some "little_endian") (some v) =
      .ok (.str (toString (Int.lor ((Int.land v 0xff) <<< 8) (Int.shiftRight v 8)))) ∧
    formatted_value (some "dec_val") (some 123) = .ok (.str "12.3") ∧
    formatted_value (some "mil_val") (some 1234) = .ok (.str "1.234") ∧
    formatted_value (some "little_endian") (some 0x1234) = .ok (.str "13330") := by
  refine ⟨rfl, rfl, ?_, rfl, ?_, rfl, by rfl, by rfl, by rfl⟩
  · have hnn : 0 ≤ v % 10 := Int.emod_nonneg v (by norm_num)
    have hlt : v % 10 < 10 := Int.emod_lt_of_pos v (by norm_num)
    have heq : v % 10 = (((v % 10).toNat : Nat) : Int) :=
      (Int.toNat_of_nonneg hnn).symm
    rw [heq]
    exact digit_length_of_lt _ (by omega)
  · have hnn : 0 ≤ v % 1000 := Int.emod_nonneg v (by norm_num)
    have hlt : v % 1000 < 1000 := Int.emod_lt_of_pos v (by norm_num)
    have heq : v % 1000 = (((v % 1000).toNat : Nat) : Int) :=
      (Int.toNat_of_nonneg hnn).symm
    rw [heq]
    exact pad3_length_of_lt _ (by omega)

/-- Witness for C8 at `value = 123`. -/
theorem c8_formats_witness :
    (0 : Int) ≤ 123 ∧ (123 : Int) < 65536 ∧
    (formatted_value none (some 123) = .ok (.int 123) ∧
     formatted_value (some "dec_val") (some 123) =
       .ok (.str (toString ((123 : Int) / 10) ++ "." ++ toString ((123 : Int) % 10))) ∧
     (toString ((123 : Int) % 10)).length = 1 ∧
     formatted_value (some "mil_val") (some 123) =
       .ok (.str (toString ((123 : Int) / 1000) ++ "." ++ pad3 ((123 : Int) % 1000))) ∧
     (pad3 ((123 : Int) % 1000)).length = 3 ∧
     formatted_value (some "little_endian") (some 123) =
       .ok (.str (toString (Int.lor ((Int.land 123 0xff) <<< 8) (Int.shiftRight 123 8)))) ∧
     formatted_value (some "dec_val") (some 123) = .ok (.str "12.3") ∧
     formatted_value (some "mil_val") (some 1234) = .ok (.str "1.234") ∧
     formatted_value (some "little_endian") (some 0x1234) = .ok (.str "13330")) :=
  ⟨by norm_num, by norm_num, c8_formats 123 (by norm_num) (by norm_num)⟩

theorem dictGet_dictInsert_self (m : List (String × ConfigEntry)) (k : String)
    (v : ConfigEntry) : dictGet (dictInsert m k v) k = some v := by
  induction m with
  | nil => simp [dictInsert, dictGet]
  | cons p rest ih =>
    rcases p with ⟨k2, v2⟩
    by_cases h : k2 = k
    · simp [dictInsert, dictGet, h]
    · simp [dictInsert, dictGet, h, ih]

theorem dictGet_dictInsert_ne (m : List (String × ConfigEntry)) (k k2 : String)
    (v : ConfigEntry) (h : k ≠ k2) :
    dictGet (dictInsert m k v) k2 = dictGet m k2 := by
  induction m with
  | nil => simp [dictInsert, dictGet, h]
  | cons p rest ih =>
    rcases p with ⟨k3, v3⟩
    by_cases hk : k3 = k
    · subst hk
      simp [dictInsert, dictGet, h, ih]
    · by_cases hk2 : k3 = k2
      · simp [dictInsert, dictGet, hk, hk2, Ne.symm h]
      · simp [dictInsert, dictGet, hk, hk2, ih]

/-- The dict comprehension of `ElsterBus.__init__` binds each name to
the last configuration entry carrying it. -/
theorem buildConfig_get (l : List ConfigEntry) (k : String) :
    dictGet (buildConfig l) k = lastNamed l k := by
  suffices h : ∀ m, dictGet (List.foldl (fun m e => dictInsert m e.name e) m l) k =
      (match lastNamed l k with
       | some r => some r
       | none => dictGet m k) by
    rw [buildConfig, h []]
    cases lastNamed l k <;> rfl
  induction l with
  | nil => intro m; rfl
  | cons e rest ih =>
    intro m
    rw [List.foldl_cons, ih (dictInsert m e.name e)]
    show _ = (match lastNamed (e :: rest) k with
      | some r => some r
      | none => dictGet m k)
    rw [lastNamed]
    cases hr : lastNamed rest k with
    | some r => rfl
    | none =>
      by_cases he : e.name = k
      · rw [if_pos he, ← he, dictGet_dictInsert_self]
      · rw [if_neg he, dictGet_dictInsert_ne _ _ _ _ he]

/-- C9: `config_lookup` fails with `ElsterInvalidName` exactly for
names absent from the directory; for a present name it takes the last
entry with that name (dict-comprehension overwrite), splits that
entry's `"HEX.HEX"` index at the dot, parses both parts as hexadecimal
integers, and pairs them with the entry's optional format. -/
theorem c9_config_lookup (entries : List ConfigEntry) (name : String) :
    (lastNamed entries name = none →
       config_lookup (buildConfig entries) name = .error (.elster .invalidName)) ∧
    (∀ e x y a b, lastNamed entries name = some e →
       pySplitDot e.index = [a, b] →
       int16 a = some x → int16 b = some y →
       config_lookup (buildConfig entries) name = .ok (x, y, e.format)) := by
  constructor
  · intro h
    rw [config_lookup, buildConfig_get, h]
  · intro e x y a b he hsplit ha hb
    rw [config_lookup, buildConfig_get, he]
    show (match pySplitDot e.index with
      | [rec, reg] =>
        match int16 rec, int16 reg with
        | some r1, some r2 => Except.ok (r1, r2, e.format)
        | _, _ => Except.error PyError.valueError
      | _ => Except.error PyError.valueError) = _
    rw [hsplit]
    simp only [ha, hb]

/-- Witness for C9: duplicate `"FOO"` entries resolve to the last one
(`index = "180.deaf"`), and an absent name fails. -/
theorem c9_config_lookup_witness :
    lastNamed [⟨"FOO", "100.aaaa", some "dec_val"⟩, ⟨"FOO", "180.deaf", none⟩]
        "FOO" = some ⟨"FOO", "180.deaf", none⟩ ∧
    pySplitDot "180.deaf" = ["180", "deaf"] ∧
    int16 "180" = some 0x180 ∧ int16 "deaf" = some 0xdeaf ∧
    config_lookup (buildConfig [⟨"FOO", "100.aaaa", some "dec_val"⟩,
        ⟨"FOO", "180.deaf", none⟩]) "FOO" = .ok (0x180, 0xdeaf, none) ∧
    lastNamed [⟨"FOO", "100.aaaa", some "dec_val"⟩, ⟨"FOO", "180.deaf", none⟩]
        "BAR" = none ∧
    config_lookup (buildConfig [⟨"FOO", "100.aaaa", some "dec_val"⟩,
        ⟨"FOO", "180.deaf", none⟩]) "BAR" = .error (.elster .invalidName) :=
  ⟨by decide, by decide, by decide, by decide,
   (c9_config_lookup [⟨"FOO", "100.aaaa", some "dec_val"⟩,
      ⟨"FOO", "180.deaf", none⟩] "FOO").2 ⟨"FOO", "180.deaf", none⟩
     0x180 0xdeaf "180" "deaf" (by decide) (by decide) (by decide) (by decide),
   by decide,
   (c9_config_lookup [⟨"FOO", "100.aaaa", some "dec_val"⟩,
      ⟨"FOO", "180.deaf", none⟩] "BAR").1 (by decide)⟩

end Elster

namespace Elster

/-- Witness for the amended C2: the first recorded `recv` call of a
concrete run carries the full original timeout. -/
theorem c2_amended_witness :
    ((30, 0) ∈ (readLoop 0x123 0x180 none 30 0
        [⟨10, some ⟨0x999, [0, 0, 0, 0, 0, 0, 0]⟩⟩]).2) ∧
    ((30, 0) : Nat × Nat).1 = 30 ∧ ((30, 0) : Nat × Nat).2 < 30 :=
  ⟨by decide,
   (c2_amended 0x123 0x180 none 30
     [⟨10, some ⟨0x999, [0, 0, 0, 0, 0, 0, 0]⟩⟩] 0 (30, 0) (by decide)).1,
   (c2_amended 0x123 0x180 none 30
     [⟨10, some ⟨0x999, [0, 0, 0, 0, 0, 0, 0]⟩⟩] 0 (30, 0) (by decide)).2⟩

end Elster
